import Mathlib

/-!
Verification of the EchoCast event-log reconciliation engine.

This file gives a shallow embedding of the `setLogs` updater of
`src/components/Overlay/EventOverlay.tsx` (the Event Reconciliation Engine)
and proves properties of it corresponding to the specification.

Modelling conventions:
* JavaScript strings are Lean `String` (a list of characters).
* Timestamps are `Int` (JS numbers at millisecond resolution; all claims use
  integral values and only comparisons/subtraction are performed on them).
* The id of a freshly created log item is `Date.now() + Math.random()` in the
  source, i.e. it is drawn from a source external to the function; we model it
  as an explicit `freshId : Nat` argument supplied by the environment.
* The `paused` condition (`showSettingsRef.current`) is an explicit `Bool`
  argument: when it is `true` the incoming event is dropped and the log is
  returned unchanged (the source returns from the listener without calling
  `setLogs`).
* The regular expressions of the source are modelled by small explicit
  scanners with the same semantics, documented at each definition.
-/

set_option autoImplicit false

namespace EchoCast

/-- The `event_type` field of `InputEventPayload` in the source:
`'mousemove' | 'mousedown' | 'mouseup' | 'click' | 'doubleclick' | 'key' |
'system' | 'dragstart' | 'drag'`. -/
inductive EventType where
  | mousemove
  | mousedown
  | mouseup
  | click
  | doubleclick
  | key
  | system
  | dragstart
  | drag
  deriving DecidableEq, Repr

/-- `InputEventPayload` of the source: an event type tag, a free-form label
and a millisecond timestamp. -/
structure InputEventPayload where
  event_type : EventType
  label : String
  timestamp : Int
  deriving DecidableEq, Repr

/-- `LogItem` of the source.  The TypeScript field `isTypingSequence` is
optional (`boolean | undefined`); it is only ever read through truthiness
tests, so we model it as a `Bool` that defaults to `false` where the source
builds an item without the field. -/
structure LogItem where
  id : Nat
  payload : InputEventPayload
  count : Nat
  isTypingSequence : Bool := false
  deriving DecidableEq, Repr

/-- Test for the character class `[a-zA-Z0-9]` (ASCII letters and digits). -/
def isAlnumChar (c : Char) : Bool :=
  ('a' ≤ c && c ≤ 'z') || ('A' ≤ c && c ≤ 'Z') || ('0' ≤ c && c ≤ '9')

/-- The source's `isTextKey`: `/^[a-zA-Z0-9]$/.test(lbl)`, i.e. the label is
exactly one ASCII alphanumeric character. -/
def isTextKey (lbl : String) : Bool :=
  match lbl.data with
  | [c] => isAlnumChar c
  | _ => false

/-- Model of `label.replace(/^@key\[/i, '')`: if the string starts with the
five characters `@key[` (the three letters case-insensitively, matching the
`i` flag on ASCII input), drop that prefix; otherwise return the string
unchanged. -/
def stripKeyTagOpen (s : String) : String :=
  match s.data with
  | '@' :: c1 :: c2 :: c3 :: '[' :: rest =>
    if (c1 = 'k' ∨ c1 = 'K') ∧ (c2 = 'e' ∨ c2 = 'E') ∧ (c3 = 'y' ∨ c3 = 'Y') then
      String.mk rest
    else s
  | _ => s

/-- Model of `.replace(/\]$/, '')`: drop a single trailing `]` if present. -/
def stripCloseSuffix (s : String) : String :=
  if s.data.getLast? = some ']' then String.mk s.data.dropLast else s

/-- The bare content of a key label, as computed at lines 158-159 of the
source: `label.replace(/^@key\[/i, '').replace(/\]$/, '')`. -/
def stripKeyTag (s : String) : String :=
  stripCloseSuffix (stripKeyTagOpen s)

/-- Scanner for the `.*?\[` part of `/^@.*?\[/`: drop characters (none of
which may be a line terminator — `\n`, `\r`, U+2028 or U+2029 — since `.`
does not match one) up to and including the first `[`; `none` when there is
no such `[`. -/
def dropThroughFirstOpen : List Char → Option (List Char)
  | [] => none
  | c :: rest =>
    if c = '[' then some rest
    else if c = '\n' ∨ c = '\r' ∨ c = '\u2028' ∨ c = '\u2029' then none
    else dropThroughFirstOpen rest

/-- Model of `label.replace(/^@.*?\[/, '')`: if the label starts with `@`
and a `[` follows on the same line, drop everything through that first `[`;
otherwise return the label unchanged. -/
def stripDisplayTagOpen (s : String) : String :=
  match s.data with
  | '@' :: rest =>
    match dropThroughFirstOpen rest with
    | some rest2 => String.mk rest2
    | none => s
  | _ => s

/-- The source's `getDisplayLabel`:
`payload.label.replace(/^@.*?\[/, '').replace(/\]$/, '')`. -/
def getDisplayLabel (payload : InputEventPayload) : String :=
  stripCloseSuffix (stripDisplayTagOpen payload.label)

/-- Scanner for the lazy group of `/\[(.*?)\]/` after an opening `[`:
the characters (no line terminator — `\n`, `\r`, U+2028 or U+2029) up to
the first `]`, or `none` if no `]` follows on the same line. -/
def captureUpToClose : List Char → Option (List Char)
  | [] => none
  | c :: rest =>
    if c = ']' then some []
    else if c = '\n' ∨ c = '\r' ∨ c = '\u2028' ∨ c = '\u2029' then none
    else (captureUpToClose rest).map (fun g => c :: g)

/-- Scanner for `/\[(.*?)\]/` over a list of characters: find the first `[`
from which a capture succeeds, mirroring the regex engine's left-to-right
search over starting positions. -/
def scanForGroup : List Char → Option (List Char)
  | [] => none
  | c :: rest =>
    if c = '[' then
      match captureUpToClose rest with
      | some g => some g
      | none => scanForGroup rest
    else scanForGroup rest

/-- Model of `label.match(/\[(.*?)\]/)` returning the first captured group:
the content of the first bracketed group of the label, if any. -/
def firstBracketGroup (s : String) : Option String :=
  (scanForGroup s.data).map String.mk

/-- Containment of `pat` as a contiguous run inside a character list. -/
def containsRun (pat : List Char) : List Char → Bool
  | [] => pat.isEmpty
  | c :: rest => pat.isPrefixOf (c :: rest) || containsRun pat rest

/-- The ECMAScript `SyntaxCharacter`s: the characters that carry syntactic
meaning in a regular-expression pattern (`^ $ \ . * + ? ( ) [ ] { } |`).
A pattern made of other characters only is a sequence of
`PatternCharacter`s: it compiles without error and matches exactly its own
literal text. -/
def isRegexSyntaxChar (c : Char) : Bool :=
  c = '^' || c = '$' || c = '\\' || c = '.' || c = '*' || c = '+' ||
  c = '?' || c = '(' || c = ')' || c = '[' || c = ']' || c = '{' ||
  c = '}' || c = '|'

/-- Model of ``log.payload.label.match(new RegExp(`\\[${btnName}\\]`))``
being truthy: the label contains the substring `[btnName]`.

The source interpolates the captured identifier into the pattern
UNESCAPED.  When no character of `btnName` is an ECMAScript syntax
character (`isRegexSyntaxChar`), the constructed pattern
`\[` `btnName` `\]` is a run of literal characters, `new RegExp` cannot
throw, and the truthiness of `.match` is exactly this substring test —
every theorem below that quantifies over an identifier carries that
hypothesis.  For an identifier containing a syntax character the source
instead interprets it as regex syntax (or throws a `SyntaxError` at
construction for a malformed pattern, e.g. a lone `(`); that regime is
outside this embedding and outside the domain of every theorem that uses
this definition with a quantified identifier. -/
def strContainsBracketed (btn label : String) : Bool :=
  containsRun ('[' :: btn.data ++ [']']) label.data

/-- The capacity step shared by the appending paths of the source:
`newLogs.length > 20 ? newLogs.slice(newLogs.length - 20) : newLogs`. -/
def capTwenty {α : Type} (newLogs : List α) : List α :=
  if newLogs.length > 20 then newLogs.drop (newLogs.length - 20) else newLogs

/-- The source's `// Normal Add` path (lines 210-213): append a fresh item
with `count` 1 (and no `isTypingSequence` field) and enforce the capacity. -/
def normalAdd (freshId : Nat) (prevLogs : List LogItem)
    (newEvent : InputEventPayload) : List LogItem :=
  capTwenty (prevLogs ++ [{ id := freshId, payload := newEvent, count := 1 }])

/-- The `// Key combo optimization` block (lines 157-176 of the source). -/
def keyUpdate (freshId : Nat) (prevLogs : List LogItem)
    (newEvent : InputEventPayload) : List LogItem :=
  let newLabel := stripKeyTag newEvent.label
  match prevLogs.getLast? with
  | some lastLog =>
    -- exact repeat of the same full label (line 161)
    if lastLog.payload.event_type = EventType.key ∧
        lastLog.payload.label = newEvent.label then
      prevLogs.dropLast ++ [{ lastLog with count := lastLog.count + 1 }]
    -- typing continuation (lines 165-170)
    else if lastLog.payload.event_type = EventType.key ∧
        isTextKey newLabel = true ∧ lastLog.isTypingSequence = true then
      let lastLabel := stripKeyTag lastLog.payload.label
      let updatedLabel := "@Key[" ++ lastLabel ++ newLabel ++ "]"
      prevLogs.dropLast ++ [{ lastLog with
        payload := { lastLog.payload with
          label := updatedLabel, timestamp := newEvent.timestamp },
        count := 1 }]
    -- new key entry (lines 172-175)
    else
      capTwenty (prevLogs ++
        [{ id := freshId, payload := newEvent, count := 1,
           isTypingSequence := isTextKey newLabel }])
  | none =>
    capTwenty (prevLogs ++
      [{ id := freshId, payload := newEvent, count := 1,
         isTypingSequence := isTextKey newLabel }])

/-- The `// Click Cleanup Logic` block (lines 179-192 of the source).  When
the label has a first bracketed group and it is non-empty (the source tests
the captured string for truthiness, so the empty group falls through),
drop every entry within 500ms that is a mousedown/mouseup carrying the same
bracketed identifier, then append the click; the appended list is NOT passed
through the capacity check in the source.  Otherwise execution falls through
to the normal-add path.

The identifier test uses `strContainsBracketed`, the literal reading of the
source's unescaped `new RegExp` construction (line 183); see its doc
comment.  A captured identifier containing regex syntax characters can make
the source's `new RegExp` behave non-literally or throw a `SyntaxError`; no
theorem below evaluates this definition on such an identifier: the
quantified claims carry an explicit regex-literal hypothesis, and the
concrete ones use `Left`/`Right` or reach only the empty-group and
normal-add paths. -/
def clickUpdate (freshId : Nat) (prevLogs : List LogItem)
    (newEvent : InputEventPayload) : List LogItem :=
  match firstBracketGroup newEvent.label with
  | some btnName =>
    if btnName = "" then normalAdd freshId prevLogs newEvent
    else
      let cleanedLogs := prevLogs.filter fun log =>
        if newEvent.timestamp - log.payload.timestamp > 500 then true
        else if (log.payload.event_type = EventType.mousedown ∨
            log.payload.event_type = EventType.mouseup) ∧
            strContainsBracketed btnName log.payload.label = true then false
        else true
      cleanedLogs ++ [{ id := freshId, payload := newEvent, count := 1 }]
  | none => normalAdd freshId prevLogs newEvent

/-- The `// DoubleClick Cleanup Logic` block (lines 195-208 of the source):
as `clickUpdate`, but the dropped kinds additionally include `click`.  The
same remark as for `clickUpdate` applies to its `new RegExp` construction
(line 199) and the regex-literal domain of the theorems below. -/
def doubleclickUpdate (freshId : Nat) (prevLogs : List LogItem)
    (newEvent : InputEventPayload) : List LogItem :=
  match firstBracketGroup newEvent.label with
  | some btnName =>
    if btnName = "" then normalAdd freshId prevLogs newEvent
    else
      let cleanedLogs := prevLogs.filter fun log =>
        if newEvent.timestamp - log.payload.timestamp > 500 then true
        else if (log.payload.event_type = EventType.click ∨
            log.payload.event_type = EventType.mousedown ∨
            log.payload.event_type = EventType.mouseup) ∧
            strContainsBracketed btnName log.payload.label = true then false
        else true
      cleanedLogs ++ [{ id := freshId, payload := newEvent, count := 1 }]
  | none => normalAdd freshId prevLogs newEvent

/-- The whole `setLogs` updater (lines 142-214 of the source), dispatched on
the incoming event's type exactly as the source's ordered `if` chain does:
the mousemove-coalescing test only fires for mousemove events, the key block
for key events, the click/doubleclick cleanup blocks for their kinds, and
every remaining case reaches the normal-add path.  `paused` models the
`showSettingsRef.current` early return of the listener. -/
def applyEvent (paused : Bool) (freshId : Nat) (prevLogs : List LogItem)
    (newEvent : InputEventPayload) : List LogItem :=
  if paused then prevLogs
  else
    match newEvent.event_type with
    | EventType.mousemove =>
      -- `// MouseMove optimization` (lines 152-154)
      match prevLogs.getLast? with
      | some lastLog =>
        if lastLog.payload.event_type = EventType.mousemove then
          prevLogs.dropLast ++
            [{ lastLog with payload := newEvent, count := lastLog.count + 1 }]
        else normalAdd freshId prevLogs newEvent
      | none => normalAdd freshId prevLogs newEvent
    | EventType.key => keyUpdate freshId prevLogs newEvent
    | EventType.click => clickUpdate freshId prevLogs newEvent
    | EventType.doubleclick => doubleclickUpdate freshId prevLogs newEvent
    | _ => normalAdd freshId prevLogs newEvent

/-! ### Basic facts about the capacity step -/

theorem capTwenty_eq_self {α : Type} {l : List α} (h : l.length ≤ 20) :
    capTwenty l = l := by
  simp [capTwenty, Nat.not_lt_of_le h]

theorem capTwenty_of_length21 {α : Type} {l : List α} (h : l.length = 21) :
    capTwenty l = l.tail := by
  simp [capTwenty, h, List.drop_one]

theorem getLast?_capTwenty_concat {α : Type} (l : List α) (x : α) :
    (capTwenty (l ++ [x])).getLast? = some x := by
  unfold capTwenty
  split
  · next h =>
    rw [List.drop_append_of_le_length
      (by simp only [List.length_append, List.length_cons,
        List.length_nil] at h ⊢; omega)]
    exact List.getLast?_concat _
  · exact List.getLast?_concat _

/-! ### Branch characterizations of the updater -/

theorem applyEvent_mousemove_merge (i : Nat) (L : List LogItem)
    (e : InputEventPayload) (last : LogItem) (hl : L.getLast? = some last)
    (hm : last.payload.event_type = EventType.mousemove)
    (he : e.event_type = EventType.mousemove) :
    applyEvent false i L e =
      L.dropLast ++ [{ last with payload := e, count := last.count + 1 }] := by
  obtain ⟨t, lbl, ts⟩ := e
  cases he
  simp only [applyEvent, Bool.false_eq_true, if_false, hl, if_pos hm]

theorem applyEvent_key_repeat (i : Nat) (L : List LogItem)
    (e : InputEventPayload) (last : LogItem) (hl : L.getLast? = some last)
    (hk : last.payload.event_type = EventType.key)
    (he : e.event_type = EventType.key)
    (hlab : last.payload.label = e.label) :
    applyEvent false i L e =
      L.dropLast ++ [{ last with count := last.count + 1 }] := by
  obtain ⟨t, lbl, ts⟩ := e
  cases he
  simp only [applyEvent, Bool.false_eq_true, if_false, keyUpdate, hl]
  rw [if_pos ⟨hk, hlab⟩]

theorem applyEvent_key_cont (i : Nat) (L : List LogItem)
    (e : InputEventPayload) (last : LogItem) (hl : L.getLast? = some last)
    (hk : last.payload.event_type = EventType.key)
    (he : e.event_type = EventType.key)
    (hlab : last.payload.label ≠ e.label)
    (hts : last.isTypingSequence = true)
    (hnew : isTextKey (stripKeyTag e.label) = true) :
    applyEvent false i L e =
      L.dropLast ++ [{ last with
        payload := { last.payload with
          label := "@Key[" ++ stripKeyTag last.payload.label ++
            stripKeyTag e.label ++ "]",
          timestamp := e.timestamp },
        count := 1 }] := by
  obtain ⟨t, lbl, ts⟩ := e
  cases he
  simp only [applyEvent, Bool.false_eq_true, if_false, keyUpdate, hl]
  rw [if_neg (fun h => hlab h.2), if_pos ⟨hk, hnew, hts⟩]

theorem applyEvent_key_new (i : Nat) (L : List LogItem)
    (e : InputEventPayload) (he : e.event_type = EventType.key)
    (h : ∀ last, L.getLast? = some last →
      last.payload.event_type = EventType.key →
      last.payload.label ≠ e.label ∧
        (isTextKey (stripKeyTag e.label) = false ∨
          last.isTypingSequence = false)) :
    applyEvent false i L e =
      capTwenty (L ++
        [{ id := i, payload := e, count := 1,
           isTypingSequence := isTextKey (stripKeyTag e.label) }]) := by
  obtain ⟨t, lbl, ts⟩ := e
  cases he
  dsimp only at h
  cases hl : L.getLast? with
  | none => simp only [applyEvent, Bool.false_eq_true, if_false, keyUpdate, hl]
  | some last =>
    have h1 := h last hl
    simp only [applyEvent, Bool.false_eq_true, if_false, keyUpdate, hl]
    rw [if_neg (fun hc => (h1 hc.1).1 hc.2), if_neg]
    rintro ⟨hk, hnew, hts⟩
    rcases (h1 hk).2 with h2 | h2
    · exact absurd hnew (by simp [h2])
    · exact absurd hts (by simp [h2])

theorem applyEvent_other (i : Nat) (L : List LogItem) (e : InputEventPayload)
    (he : e.event_type = EventType.mousedown ∨
      e.event_type = EventType.mouseup ∨
      e.event_type = EventType.system ∨
      e.event_type = EventType.dragstart ∨
      e.event_type = EventType.drag) :
    applyEvent false i L e = normalAdd i L e := by
  obtain ⟨t, lbl, ts⟩ := e
  rcases he with h | h | h | h | h <;> cases h <;> rfl

theorem applyEvent_mousemove_nomerge (i : Nat) (L : List LogItem)
    (e : InputEventPayload) (he : e.event_type = EventType.mousemove)
    (h : ∀ last, L.getLast? = some last →
      last.payload.event_type ≠ EventType.mousemove) :
    applyEvent false i L e = normalAdd i L e := by
  obtain ⟨t, lbl, ts⟩ := e
  cases he
  simp only [applyEvent, Bool.false_eq_true, if_false]
  cases hl : L.getLast? with
  | none => rfl
  | some last => exact if_neg (h last hl)

theorem applyEvent_click_clean (i : Nat) (L : List LogItem)
    (e : InputEventPayload) (btn : String)
    (he : e.event_type = EventType.click)
    (hb : firstBracketGroup e.label = some btn) (hne : btn ≠ "") :
    applyEvent false i L e =
      (L.filter fun log =>
        if e.timestamp - log.payload.timestamp > 500 then true
        else if (log.payload.event_type = EventType.mousedown ∨
            log.payload.event_type = EventType.mouseup) ∧
            strContainsBracketed btn log.payload.label = true then false
        else true) ++ [{ id := i, payload := e, count := 1 }] := by
  obtain ⟨t, lbl, ts⟩ := e
  cases he
  simp only [applyEvent, Bool.false_eq_true, if_false, clickUpdate] at *
  rw [hb]
  simp only [if_neg hne]

theorem applyEvent_doubleclick_clean (i : Nat) (L : List LogItem)
    (e : InputEventPayload) (btn : String)
    (he : e.event_type = EventType.doubleclick)
    (hb : firstBracketGroup e.label = some btn) (hne : btn ≠ "") :
    applyEvent false i L e =
      (L.filter fun log =>
        if e.timestamp - log.payload.timestamp > 500 then true
        else if (log.payload.event_type = EventType.click ∨
            log.payload.event_type = EventType.mousedown ∨
            log.payload.event_type = EventType.mouseup) ∧
            strContainsBracketed btn log.payload.label = true then false
        else true) ++ [{ id := i, payload := e, count := 1 }] := by
  obtain ⟨t, lbl, ts⟩ := e
  cases he
  simp only [applyEvent, Bool.false_eq_true, if_false, doubleclickUpdate] at *
  rw [hb]
  simp only [if_neg hne]

theorem applyEvent_click_nobtn (i : Nat) (L : List LogItem)
    (e : InputEventPayload)
    (he : e.event_type = EventType.click ∨
      e.event_type = EventType.doubleclick)
    (hb : firstBracketGroup e.label = none ∨
      firstBracketGroup e.label = some "") :
    applyEvent false i L e = normalAdd i L e := by
  obtain ⟨t, lbl, ts⟩ := e
  rcases he with h | h <;> cases h <;>
    simp only [applyEvent, Bool.false_eq_true, if_false, clickUpdate,
      doubleclickUpdate] at * <;>
    rcases hb with h2 | h2 <;> rw [h2] <;> simp

/-! ### Facts about the label helpers -/

theorem stripCloseSuffix_concat (cs : List Char) :
    stripCloseSuffix (String.mk (cs ++ [']'])) = String.mk cs := by
  simp [stripCloseSuffix, List.getLast?_concat, List.dropLast_concat]

/-- Stripping the key tag from a rebuilt typing label recovers the content. -/
theorem stripKeyTag_wrap (s : String) :
    stripKeyTag ("@Key[" ++ s ++ "]") = s := by
  obtain ⟨cs⟩ := s
  show stripCloseSuffix (stripKeyTagOpen ("@Key[" ++ String.mk cs ++ "]")) =
    String.mk cs
  rw [show stripKeyTagOpen ("@Key[" ++ String.mk cs ++ "]") =
    String.mk (cs ++ [']']) from rfl]
  exact stripCloseSuffix_concat cs

/-- The displayed content of a rebuilt typing label is its bare content. -/
theorem displayContent_wrap (s : String) :
    stripCloseSuffix (stripDisplayTagOpen ("@Key[" ++ s ++ "]")) = s := by
  obtain ⟨cs⟩ := s
  rw [show stripDisplayTagOpen ("@Key[" ++ String.mk cs ++ "]") =
    String.mk (cs ++ [']']) from rfl]
  exact stripCloseSuffix_concat cs

theorem getDisplayLabel_eq (p : InputEventPayload) :
    getDisplayLabel p = stripCloseSuffix (stripDisplayTagOpen p.label) := rfl

theorem isTextKey_data {s : String} (h : isTextKey s = true) :
    ∃ c, s.data = [c] := by
  obtain ⟨cs⟩ := s
  match cs, h with
  | [c], _ => exact ⟨c, rfl⟩

/-- `containsRun` is exactly contiguous-substring containment. -/
theorem containsRun_iff (pat l : List Char) :
    containsRun pat l = true ↔ ∃ l1 l2, l = l1 ++ (pat ++ l2) := by
  induction l with
  | nil =>
    simp only [containsRun, List.isEmpty_eq_true]
    constructor
    · rintro rfl
      exact ⟨[], [], rfl⟩
    · rintro ⟨l1, l2, h⟩
      rcases List.append_eq_nil.mp h.symm with ⟨rfl, h2⟩
      exact (List.append_eq_nil.mp h2).1
  | cons c rest ih =>
    simp only [containsRun, Bool.or_eq_true, List.isPrefixOf_iff_prefix, ih]
    constructor
    · rintro (hp | ⟨l1, l2, rfl⟩)
      · obtain ⟨t, ht⟩ := hp
        exact ⟨[], t, by simp [← ht]⟩
      · exact ⟨c :: l1, l2, rfl⟩
    · rintro ⟨l1, l2, hl⟩
      cases l1 with
      | nil =>
        left
        exact ⟨l2, by simp [hl]⟩
      | cons a l1 =>
        right
        simp only [List.cons_append, List.cons.injEq] at hl
        exact ⟨l1, l2, hl.2⟩

/-- Bracketed containment, in the vocabulary of the specification: the label
splits as some prefix, then `[` identifier `]`, then some suffix. -/
theorem strContainsBracketed_iff (btn s : String) :
    strContainsBracketed btn s = true ↔
      ∃ pre post : String, s = pre ++ ("[" ++ btn ++ "]") ++ post := by
  obtain ⟨bs⟩ := btn
  obtain ⟨cs⟩ := s
  rw [show strContainsBracketed (String.mk bs) (String.mk cs) =
    containsRun ('[' :: bs ++ [']']) cs from rfl, containsRun_iff]
  constructor
  · rintro ⟨l1, l2, rfl⟩
    refine ⟨String.mk l1, String.mk l2, String.ext ?_⟩
    simp [List.append_assoc]
  · rintro ⟨⟨ps⟩, ⟨qs⟩, h⟩
    refine ⟨ps, qs, ?_⟩
    have hd := congrArg String.data h
    simp [List.append_assoc] at hd ⊢
    exact hd

/-! ### Claims -/

/-- A 20-item log of system events, used to exhibit the missing capacity
check of the click cleanup path. -/
def fullSystemLog : List LogItem :=
  (List.range 20).map fun k => ⟨k, ⟨EventType.system, "sys", 0⟩, 1, false⟩

/-- C1: the claim states that every update leaves the log with length at
most 20, including the click and double-click de-duplication branches.  The
code violates this: those branches append the synthesized event after
filtering WITHOUT the capacity check that the other append paths perform.
Applying a click carrying the identifier `[Left]` at t = 1000 to a full
20-item log of system events at t = 0 (none within the 500ms window, so
nothing is filtered) yields a log of 21 items. -/
theorem c1_capacity_violated_on_click :
    fullSystemLog.length = 20 ∧
    (applyEvent false 1000 fullSystemLog
      ⟨EventType.click, "@mouse[Left]", 1000⟩).length = 21 := by decide

/-- C2 (counterexample): the claim states that typing continuation happens
only when the last item's bare content is a single alphanumeric character.
The code checks only the `isTypingSequence` mark: with a last item whose
bare content is the two-character `ab` (label `@Key[ab]`, marked as a typing
sequence), an incoming key `@key[c]` IS concatenated, producing `@Key[abc]`.
-/
theorem c2_counterexample :
    (stripKeyTag ("@Key[ab]")).length = 2 ∧
    applyEvent false 2 [⟨1, ⟨EventType.key, "@Key[ab]", 0⟩, 1, true⟩]
        ⟨EventType.key, "@key[c]", 5⟩ =
      [⟨1, ⟨EventType.key, "@Key[abc]", 5⟩, 1, true⟩] := by decide

/-- C2 (amended): typing continuation happens exactly when the last item is
a key event marked `isTypingSequence`, the incoming key event has a
different full label, and the incoming bare content is a single
alphanumeric character — the last item's own bare content is NOT examined.
The new character is concatenated onto the last bare content, rewrapped,
the timestamp updated and the repeat count reset to 1. -/
theorem c2_amended_typing_continuation (i : Nat) (L : List LogItem)
    (e : InputEventPayload) (last : LogItem) (hl : L.getLast? = some last)
    (hk : last.payload.event_type = EventType.key)
    (he : e.event_type = EventType.key)
    (hlab : last.payload.label ≠ e.label)
    (hts : last.isTypingSequence = true)
    (hnew : isTextKey (stripKeyTag e.label) = true) :
    applyEvent false i L e =
      L.dropLast ++ [{ last with
        payload := { last.payload with
          label := "@Key[" ++ stripKeyTag last.payload.label ++
            stripKeyTag e.label ++ "]",
          timestamp := e.timestamp },
        count := 1 }] :=
  applyEvent_key_cont i L e last hl hk he hlab hts hnew

/-- Witness for C2 (amended) at a concrete input: continuing `@Key[xy]`
with `@key[z]`. -/
theorem c2_amended_typing_continuation_witness :
    applyEvent false 7 [⟨3, ⟨EventType.key, "@Key[xy]", 1⟩, 1, true⟩]
        ⟨EventType.key, "@key[z]", 8⟩ =
      [⟨3, ⟨EventType.key, "@Key[xyz]", 8⟩, 1, true⟩] :=
  (c2_amended_typing_continuation 7
    [⟨3, ⟨EventType.key, "@Key[xy]", 1⟩, 1, true⟩]
    ⟨EventType.key, "@key[z]", 8⟩
    ⟨3, ⟨EventType.key, "@Key[xy]", 1⟩, 1, true⟩
    rfl rfl rfl (by decide) rfl (by decide)).trans (by decide)

/-- C6: an incoming key event whose full label is identical to that of the
last item (a key event) increments the last item's repeat count by 1 and
changes nothing else — in particular no typing concatenation occurs, the
label, timestamp and `isTypingSequence` mark are untouched, and the log's
length is unchanged. -/
theorem c6_exact_repeat (i : Nat) (L : List LogItem) (e : InputEventPayload)
    (last : LogItem) (hl : L.getLast? = some last)
    (hk : last.payload.event_type = EventType.key)
    (he : e.event_type = EventType.key)
    (hlab : last.payload.label = e.label) :
    applyEvent false i L e =
      L.dropLast ++ [{ last with count := last.count + 1 }] ∧
    (applyEvent false i L e).length = L.length := by
  have h1 := applyEvent_key_repeat i L e last hl hk he hlab
  refine ⟨h1, ?_⟩
  rw [h1]
  have hne : L ≠ [] := by
    intro h
    rw [h] at hl
    cases hl
  have hpos : 0 < L.length := List.length_pos.mpr hne
  simp only [List.length_append, List.length_dropLast, List.length_cons,
    List.length_nil]
  omega

/-- Witness for C6: a held `@key[Up]` repeat goes from count 2 to count 3,
content untouched. -/
theorem c6_exact_repeat_witness :
    applyEvent false 9 [⟨1, ⟨EventType.key, "@key[Up]", 0⟩, 2, false⟩]
        ⟨EventType.key, "@key[Up]", 7⟩ =
      [⟨1, ⟨EventType.key, "@key[Up]", 0⟩, 3, false⟩] :=
  (c6_exact_repeat 9 [⟨1, ⟨EventType.key, "@key[Up]", 0⟩, 2, false⟩]
    ⟨EventType.key, "@key[Up]", 7⟩
    ⟨1, ⟨EventType.key, "@key[Up]", 0⟩, 2, false⟩
    rfl rfl rfl rfl).1.trans (by decide)

/-- C9: an incoming pointer-move event merging with a pointer-move last item
replaces the last item's stored event by the incoming one, increments its
repeat count, leaves every other item unchanged, and leaves the log length
unchanged. -/
theorem c9_mousemove_coalescing (i : Nat) (L : List LogItem)
    (e : InputEventPayload) (last : LogItem) (hl : L.getLast? = some last)
    (hm : last.payload.event_type = EventType.mousemove)
    (he : e.event_type = EventType.mousemove) :
    applyEvent false i L e =
      L.dropLast ++ [{ last with payload := e, count := last.count + 1 }] ∧
    (applyEvent false i L e).length = L.length := by
  have h1 := applyEvent_mousemove_merge i L e last hl hm he
  refine ⟨h1, ?_⟩
  rw [h1]
  have hne : L ≠ [] := by
    intro h
    rw [h] at hl
    cases hl
  have hpos : 0 < L.length := List.length_pos.mpr hne
  simp only [List.length_append, List.length_dropLast, List.length_cons,
    List.length_nil]
  omega

/-- Witness for C9: the second of two consecutive pointer-moves yields a
single item with repeat count 2 carrying the newer event. -/
theorem c9_mousemove_coalescing_witness :
    applyEvent false 4 [⟨2, ⟨EventType.mousemove, "@mouse[x:1,y:1]", 0⟩, 1,
        false⟩] ⟨EventType.mousemove, "@mouse[x:2,y:2]", 3⟩ =
      [⟨2, ⟨EventType.mousemove, "@mouse[x:2,y:2]", 3⟩, 2, false⟩] :=
  (c9_mousemove_coalescing 4
    [⟨2, ⟨EventType.mousemove, "@mouse[x:1,y:1]", 0⟩, 1, false⟩]
    ⟨EventType.mousemove, "@mouse[x:2,y:2]", 3⟩
    ⟨2, ⟨EventType.mousemove, "@mouse[x:1,y:1]", 0⟩, 1, false⟩
    rfl rfl rfl).1.trans (by decide)

/-- C4 (counterexample): the update is NOT a pure function of log, event and
paused flag alone — the id of a newly created item comes from
`Date.now() + Math.random()`, an external source modelled by the explicit
`freshId` argument.  Two invocations on the same log and event with the two
id draws 0 and 1 produce logs that differ (in the new item's id). -/
theorem c4_counterexample :
    applyEvent false 0 [] ⟨EventType.system, "boot", 0⟩ ≠
      applyEvent false 1 [] ⟨EventType.system, "boot", 0⟩ := by decide

/-- The id-erased view of a log item: every field except the id. -/
def itemView (it : LogItem) : InputEventPayload × Nat × Bool :=
  (it.payload, it.count, it.isTypingSequence)

/-- A log with the id of every item erased. -/
def stripIds (l : List LogItem) : List (InputEventPayload × Nat × Bool) :=
  l.map itemView

theorem map_capTwenty {α β : Type} (f : α → β) (l : List α) :
    (capTwenty l).map f = capTwenty (l.map f) := by
  unfold capTwenty
  simp only [List.length_map]
  split <;> simp [List.map_drop]

theorem stripIds_capTwenty (l : List LogItem) :
    stripIds (capTwenty l) = capTwenty (stripIds l) :=
  map_capTwenty itemView l

theorem stripIds_concat (L : List LogItem) (it : LogItem) :
    stripIds (L ++ [it]) = stripIds L ++ [itemView it] := by
  simp [stripIds]

theorem stripIds_normalAdd_indep (i j : Nat) (L : List LogItem)
    (e : InputEventPayload) :
    stripIds (normalAdd i L e) = stripIds (normalAdd j L e) := by
  simp [normalAdd, stripIds_capTwenty, stripIds_concat, itemView]

/-- C4 (amended): the update step is a pure, deterministic function of the
previous log, the incoming event and the paused flag UP TO the id of any
newly created LogItem (drawn from an external id source): erasing ids, two
applications to the same log and event produce equal logs, whatever ids the
environment supplies. -/
theorem c4_amended_deterministic_up_to_ids (p : Bool) (i j : Nat)
    (L : List LogItem) (e : InputEventPayload) :
    stripIds (applyEvent p i L e) = stripIds (applyEvent p j L e) := by
  cases p with
  | true => rfl
  | false =>
    obtain ⟨t, lbl, ts⟩ := e
    cases t <;>
      simp only [applyEvent, keyUpdate, clickUpdate, doubleclickUpdate,
        Bool.false_eq_true, if_false] <;>
      (repeat' split) <;>
      first
        | rfl
        | apply stripIds_normalAdd_indep
        | simp [normalAdd, stripIds_capTwenty, stripIds_concat, itemView]

/-- A full 20-item log of mousedown events at t = 0, for the C5
counterexample. -/
def c5FullLog : List LogItem :=
  (List.range 20).map fun k => ⟨k, ⟨EventType.mousedown, "@mouse[Right]", 0⟩, 1, false⟩

/-- C5 (counterexample): the claim quantifies over EVERY incoming
non-mergeable event, but a click carrying a bracketed identifier is
appended by the cleanup path without any capacity check: on a full 20-item
log whose entries are outside the 500ms window nothing is dropped, the
length becomes 21, and the least-recently inserted item is retained. -/
theorem c5_counterexample :
    c5FullLog.length = 20 ∧
    (applyEvent false 50 c5FullLog
      ⟨EventType.click, "@mouse[Right]", 1000⟩).length = 21 ∧
    (applyEvent false 50 c5FullLog
      ⟨EventType.click, "@mouse[Right]", 1000⟩).head? = c5FullLog.head? := by
  decide

/-- The item appended by the capacity-checked append paths: `count` 1, and
the typing mark exactly when a key event's bare content is a single
alphanumeric character. -/
def newItemFor (i : Nat) (e : InputEventPayload) : LogItem :=
  ⟨i, e, 1,
    if e.event_type = EventType.key then isTextKey (stripKeyTag e.label)
    else false⟩

/-- C5 (amended): for every full 20-item log and every incoming
non-mergeable event handled by a capacity-checked append path (any default
path kind; a pointer-move that does not coalesce; a key event starting a
new entry; a click/double-click without a non-empty bracketed identifier),
the update removes exactly the least-recently inserted item: the result is
the original log's tail, in order, followed by the new item.  Click and
double-click events carrying a non-empty bracketed identifier are excluded:
their append path performs no eviction at all (see the counterexample). -/
theorem c5_amended_fifo_eviction (i : Nat) (L : List LogItem)
    (e : InputEventPayload) (hlen : L.length = 20)
    (hpath :
      (e.event_type = EventType.mousedown ∨
       e.event_type = EventType.mouseup ∨
       e.event_type = EventType.system ∨
       e.event_type = EventType.dragstart ∨
       e.event_type = EventType.drag) ∨
      (e.event_type = EventType.mousemove ∧
        ∀ last, L.getLast? = some last →
          last.payload.event_type ≠ EventType.mousemove) ∨
      (e.event_type = EventType.key ∧
        ∀ last, L.getLast? = some last →
          last.payload.event_type = EventType.key →
          last.payload.label ≠ e.label ∧
            (isTextKey (stripKeyTag e.label) = false ∨
              last.isTypingSequence = false)) ∨
      ((e.event_type = EventType.click ∨
        e.event_type = EventType.doubleclick) ∧
        (firstBracketGroup e.label = none ∨
          firstBracketGroup e.label = some ""))) :
    applyEvent false i L e = L.tail ++ [newItemFor i e] := by
  have hcap : ∀ x : LogItem, capTwenty (L ++ [x]) = L.tail ++ [x] := by
    intro x
    rw [capTwenty_of_length21 (by simp [hlen])]
    cases L with
    | nil => simp at hlen
    | cons a l => rfl
  rcases hpath with he | ⟨he, hno⟩ | ⟨he, hkey⟩ | ⟨he, hb⟩
  · rw [applyEvent_other i L e he]
    unfold normalAdd
    rw [hcap]
    rcases he with h | h | h | h | h <;> simp [newItemFor, h]
  · rw [applyEvent_mousemove_nomerge i L e he hno]
    unfold normalAdd
    rw [hcap]
    simp [newItemFor, he]
  · rw [applyEvent_key_new i L e he hkey, hcap]
    simp [newItemFor, he]
  · rw [applyEvent_click_nobtn i L e he hb]
    unfold normalAdd
    rw [hcap]
    rcases he with h | h <;> simp [newItemFor, h]

/-- A full 20-item log of drag events, for the C5 witness. -/
def c5WitnessLog : List LogItem :=
  (List.range 20).map fun k => ⟨k, ⟨EventType.drag, "d", 0⟩, 1, false⟩

/-- Witness for C5 (amended): a 21st system event on a full log evicts
exactly the oldest item. -/
theorem c5_amended_fifo_eviction_witness :
    applyEvent false 42 c5WitnessLog ⟨EventType.system, "Sleep", 99⟩ =
      c5WitnessLog.tail ++ [newItemFor 42 ⟨EventType.system, "Sleep", 99⟩] :=
  c5_amended_fifo_eviction 42 c5WitnessLog ⟨EventType.system, "Sleep", 99⟩
    (by decide) (Or.inl (Or.inr (Or.inr (Or.inl rfl))))

/-- C10: an incoming click or double-click whose label's first bracketed
group is empty (the label contains `[]`) performs NO de-duplication — the
captured empty identifier is falsy in the source, so execution falls
through to the default new-entry path: every existing item is retained (up
to the enforced 20-item capacity) and the event is appended with repeat
count 1, exactly as if no bracketed identifier were present. -/
theorem c10_empty_identifier_default_path (i : Nat) (L : List LogItem)
    (e : InputEventPayload)
    (he : e.event_type = EventType.click ∨
      e.event_type = EventType.doubleclick)
    (hb : firstBracketGroup e.label = some "") :
    applyEvent false i L e =
      capTwenty (L ++ [{ id := i, payload := e, count := 1 }]) := by
  rw [applyEvent_click_nobtn i L e he (Or.inr hb)]
  rfl

/-- Witness for C10: a click labelled `@mouse[]` near a fresh mousedown
leaves the mousedown untouched and is simply appended. -/
theorem c10_empty_identifier_default_path_witness :
    applyEvent false 8 [⟨1, ⟨EventType.mousedown, "@mouse[]", 0⟩, 1, false⟩]
        ⟨EventType.click, "@mouse[]", 5⟩ =
      [⟨1, ⟨EventType.mousedown, "@mouse[]", 0⟩, 1, false⟩,
       ⟨8, ⟨EventType.click, "@mouse[]", 5⟩, 1, false⟩] :=
  (c10_empty_identifier_default_path 8
    [⟨1, ⟨EventType.mousedown, "@mouse[]", 0⟩, 1, false⟩]
    ⟨EventType.click, "@mouse[]", 5⟩ (Or.inl rfl) (by decide)).trans
    (by decide)

/-- C7: a click whose label carries a non-empty first bracketed button
identifier — an identifier in the spec's sense, i.e. a name made of
regex-literal characters such as `Left`, which is the regime where the
source's unescaped `new RegExp` test is the literal `[identifier]` pattern
and cannot throw — drops exactly the existing entries that are within 500ms
of the click's timestamp, of kind pointer-down or pointer-up, and whose
label contains the same bracketed identifier, then appends the click;
everything else is retained in order.  The second conjunct spells out what
"contains the same bracketed identifier" means on that domain: the label
splits around the literal substring `[identifier]`.  The monotonicity
hypothesis reflects the event source's non-decreasing timestamps, under
which "within 500ms" is the code's signed difference test. -/
theorem c7_click_cleanup (i : Nat) (L : List LogItem)
    (e : InputEventPayload) (btn : String)
    (he : e.event_type = EventType.click)
    (hb : firstBracketGroup e.label = some btn) (hne : btn ≠ "")
    (_hlit : ∀ c ∈ btn.data, isRegexSyntaxChar c = false)
    (_hmono : ∀ it ∈ L, it.payload.timestamp ≤ e.timestamp) :
    applyEvent false i L e =
      (L.filter fun it =>
        if e.timestamp - it.payload.timestamp ≤ 500 ∧
            (it.payload.event_type = EventType.mousedown ∨
             it.payload.event_type = EventType.mouseup) ∧
            strContainsBracketed btn it.payload.label = true
        then false else true) ++
        [{ id := i, payload := e, count := 1 }] ∧
    (∀ s : String, strContainsBracketed btn s = true ↔
      ∃ pre post : String, s = pre ++ ("[" ++ btn ++ "]") ++ post) := by
  refine ⟨?_, fun s => strContainsBracketed_iff btn s⟩
  rw [applyEvent_click_clean i L e btn he hb hne]
  congr 1
  apply List.filter_congr
  intro it hit
  by_cases hd : e.timestamp - it.payload.timestamp > 500
  · rw [if_pos hd, if_neg]
    rintro ⟨h1, -⟩
    omega
  · rw [if_neg hd]
    by_cases hc : (it.payload.event_type = EventType.mousedown ∨
        it.payload.event_type = EventType.mouseup) ∧
        strContainsBracketed btn it.payload.label = true
    · rw [if_pos hc, if_pos ⟨by omega, hc⟩]
    · rw [if_neg hc, if_neg]
      rintro ⟨-, h2⟩
      exact hc h2

/-- Witness for C7: the spec's click-cleanup test — a `[Left]` mousedown at
t = 0 and mouseup at t = 10 are dropped by a `[Left]` click at t = 50,
while at t = 600 they would be outside the window (covered by the filter
form of the theorem). -/
theorem c7_click_cleanup_witness :
    applyEvent false 3
        [⟨1, ⟨EventType.mousedown, "@mouse[Left]", 0⟩, 1, false⟩,
         ⟨2, ⟨EventType.mouseup, "@mouse[Left]", 10⟩, 1, false⟩]
        ⟨EventType.click, "@mouse[Left]", 50⟩ =
      [⟨3, ⟨EventType.click, "@mouse[Left]", 50⟩, 1, false⟩] :=
  ((c7_click_cleanup 3
    [⟨1, ⟨EventType.mousedown, "@mouse[Left]", 0⟩, 1, false⟩,
     ⟨2, ⟨EventType.mouseup, "@mouse[Left]", 10⟩, 1, false⟩]
    ⟨EventType.click, "@mouse[Left]", 50⟩ "Left" rfl (by decide) (by decide)
    (by decide) (by decide)).1).trans (by decide)

/-- C8: a double-click whose label carries a non-empty first bracketed
button identifier — as in C7 an identifier made of regex-literal
characters, the regime where the source's unescaped `new RegExp` test is
the literal `[identifier]` pattern and cannot throw — behaves like click
de-duplication but additionally drops matching CLICK entries within the
same 500ms window (first conjunct), while a single click event with such a
bracketed identifier never drops an existing click entry (second
conjunct). -/
theorem c8_doubleclick_cleanup :
    (∀ (i : Nat) (L : List LogItem) (e : InputEventPayload) (btn : String),
      e.event_type = EventType.doubleclick →
      firstBracketGroup e.label = some btn → btn ≠ "" →
      (∀ c ∈ btn.data, isRegexSyntaxChar c = false) →
      applyEvent false i L e =
        (L.filter fun it =>
          if e.timestamp - it.payload.timestamp ≤ 500 ∧
              (it.payload.event_type = EventType.click ∨
               it.payload.event_type = EventType.mousedown ∨
               it.payload.event_type = EventType.mouseup) ∧
              strContainsBracketed btn it.payload.label = true
          then false else true) ++
          [{ id := i, payload := e, count := 1 }]) ∧
    (∀ (i : Nat) (L : List LogItem) (e : InputEventPayload) (btn : String),
      e.event_type = EventType.click →
      firstBracketGroup e.label = some btn → btn ≠ "" →
      (∀ c ∈ btn.data, isRegexSyntaxChar c = false) →
      ∀ it ∈ L, it.payload.event_type = EventType.click →
        it ∈ applyEvent false i L e) := by
  constructor
  · intro i L e btn he hb hne _hlit
    rw [applyEvent_doubleclick_clean i L e btn he hb hne]
    congr 1
    apply List.filter_congr
    intro it hit
    by_cases hd : e.timestamp - it.payload.timestamp > 500
    · rw [if_pos hd, if_neg]
      rintro ⟨h1, -⟩
      omega
    · rw [if_neg hd]
      by_cases hc : (it.payload.event_type = EventType.click ∨
          it.payload.event_type = EventType.mousedown ∨
          it.payload.event_type = EventType.mouseup) ∧
          strContainsBracketed btn it.payload.label = true
      · rw [if_pos hc, if_pos ⟨by omega, hc⟩]
      · rw [if_neg hc, if_neg]
        rintro ⟨-, h2⟩
        exact hc h2
  · intro i L e btn he hb hne _hlit it hit hclick
    rw [applyEvent_click_clean i L e btn he hb hne]
    apply List.mem_append_left
    rw [List.mem_filter]
    refine ⟨hit, ?_⟩
    by_cases hd : e.timestamp - it.payload.timestamp > 500
    · rw [if_pos hd]
    · rw [if_neg hd, if_neg]
      rintro ⟨hk, -⟩
      rcases hk with h | h <;> rw [hclick] at h <;> cases h

/-- Witness for C8: the spec's double-click test — a `[Left]` click at
t = 0 is dropped by a `[Left]` double-click at t = 100; and symmetrically a
`[Left]` click at t = 100 retains an existing click row. -/
theorem c8_doubleclick_cleanup_witness :
    applyEvent false 9 [⟨1, ⟨EventType.click, "@mouse[Left]", 0⟩, 1, false⟩]
        ⟨EventType.doubleclick, "@mouse[Left]", 100⟩ =
      [⟨9, ⟨EventType.doubleclick, "@mouse[Left]", 100⟩, 1, false⟩] ∧
    ⟨1, ⟨EventType.click, "@mouse[Left]", 0⟩, 1, false⟩ ∈
      applyEvent false 9
        [⟨1, ⟨EventType.click, "@mouse[Left]", 0⟩, 1, false⟩]
        ⟨EventType.click, "@mouse[Left]", 100⟩ := by
  constructor
  · exact (c8_doubleclick_cleanup.1 9
      [⟨1, ⟨EventType.click, "@mouse[Left]", 0⟩, 1, false⟩]
      ⟨EventType.doubleclick, "@mouse[Left]", 100⟩ "Left" rfl (by decide)
      (by decide) (by decide)).trans (by decide)
  · exact c8_doubleclick_cleanup.2 9
      [⟨1, ⟨EventType.click, "@mouse[Left]", 0⟩, 1, false⟩]
      ⟨EventType.click, "@mouse[Left]", 100⟩ "Left" rfl (by decide)
      (by decide) (by decide) ⟨1, ⟨EventType.click, "@mouse[Left]", 0⟩, 1, false⟩
      (by decide) rfl

/-- C3: starting from any log whose last item does not merge with the first
event, feeding three key events with single-alphanumeric bare contents and
pairwise distinct full labels yields a single trailing item (the rest of
the log is unchanged and the length equals the length after the first
append), whose displayed content is the concatenation of the three bare
contents, whose repeat count is 1, and whose timestamp is the third event's
timestamp. -/
theorem c3_typing_assembly (i1 i2 i3 : Nat) (L L1 L2 L3 : List LogItem)
    (e1 e2 e3 : InputEventPayload)
    (h1k : e1.event_type = EventType.key)
    (h2k : e2.event_type = EventType.key)
    (h3k : e3.event_type = EventType.key)
    (h1a : isTextKey (stripKeyTag e1.label) = true)
    (h2a : isTextKey (stripKeyTag e2.label) = true)
    (h3a : isTextKey (stripKeyTag e3.label) = true)
    (hd12 : e1.label ≠ e2.label) (_hd13 : e1.label ≠ e3.label)
    (_hd23 : e2.label ≠ e3.label)
    (hnm : ∀ last, L.getLast? = some last →
      last.payload.event_type = EventType.key →
      last.payload.label ≠ e1.label ∧ last.isTypingSequence = false)
    (hL1 : L1 = applyEvent false i1 L e1)
    (hL2 : L2 = applyEvent false i2 L1 e2)
    (hL3 : L3 = applyEvent false i3 L2 e3) :
    L3.length = L1.length ∧ L3.dropLast = L1.dropLast ∧
    ∃ last3, L3.getLast? = some last3 ∧
      getDisplayLabel last3.payload =
        stripKeyTag e1.label ++ stripKeyTag e2.label ++ stripKeyTag e3.label ∧
      last3.count = 1 ∧ last3.payload.timestamp = e3.timestamp := by
  -- step 1: the first event starts a new entry marked as a typing sequence
  set a : LogItem := ⟨i1, e1, 1, isTextKey (stripKeyTag e1.label)⟩ with ha
  have s1 : L1 = capTwenty (L ++ [a]) := by
    rw [hL1, applyEvent_key_new i1 L e1 h1k]
    intro last hl hk
    exact ⟨(hnm last hl hk).1, Or.inr (hnm last hl hk).2⟩
  have hl1 : L1.getLast? = some a := by
    rw [s1]
    exact getLast?_capTwenty_concat L a
  -- step 2: the second event is concatenated onto the first
  set b : LogItem := { a with
    payload := { a.payload with
      label := "@Key[" ++ stripKeyTag a.payload.label ++
        stripKeyTag e2.label ++ "]",
      timestamp := e2.timestamp },
    count := 1 } with hbdef
  have s2 : L2 = L1.dropLast ++ [b] := by
    rw [hL2]
    exact applyEvent_key_cont i2 L1 e2 a hl1 h1k h2k hd12 h1a h2a
  have hl2 : L2.getLast? = some b := by
    rw [s2]
    exact List.getLast?_concat L1.dropLast
  have hb_lab : b.payload.label =
      "@Key[" ++ stripKeyTag e1.label ++ stripKeyTag e2.label ++ "]" := rfl
  have hstrip : stripKeyTag b.payload.label =
      stripKeyTag e1.label ++ stripKeyTag e2.label := by
    rw [hb_lab, String.append_assoc "@Key[" (stripKeyTag e1.label)
      (stripKeyTag e2.label)]
    exact stripKeyTag_wrap (stripKeyTag e1.label ++ stripKeyTag e2.label)
  -- the rebuilt two-character label can never equal the third event's
  -- single-character one
  have hlab3 : b.payload.label ≠ e3.label := by
    intro hEq
    have h3s : isTextKey (stripKeyTag e1.label ++ stripKeyTag e2.label) =
        true := by
      rw [← hstrip, hEq]
      exact h3a
    obtain ⟨c1, hc1⟩ := isTextKey_data h1a
    obtain ⟨c2, hc2⟩ := isTextKey_data h2a
    simp [isTextKey, String.data_append, hc1, hc2] at h3s
  -- step 3: the third event is concatenated onto the second
  set c3 : LogItem := { b with
    payload := { b.payload with
      label := "@Key[" ++ stripKeyTag b.payload.label ++
        stripKeyTag e3.label ++ "]",
      timestamp := e3.timestamp },
    count := 1 } with hc3def
  have s3 : L3 = L2.dropLast ++ [c3] := by
    rw [hL3]
    exact applyEvent_key_cont i3 L2 e3 b hl2 h1k h3k hlab3 h1a h3a
  have hl3 : L3.getLast? = some c3 := by
    rw [s3]
    exact List.getLast?_concat L2.dropLast
  -- lengths and prefixes
  have hne1 : L1 ≠ [] := by
    intro h
    rw [h] at hl1
    cases hl1
  have hne2 : L2 ≠ [] := by
    intro h
    rw [h] at hl2
    cases hl2
  have hpos1 := List.length_pos.mpr hne1
  have hpos2 := List.length_pos.mpr hne2
  have len2 : L2.length = L1.length := by
    rw [s2]
    simp only [List.length_append, List.length_dropLast, List.length_cons,
      List.length_nil]
    omega
  have len3 : L3.length = L2.length := by
    rw [s3]
    simp only [List.length_append, List.length_dropLast, List.length_cons,
      List.length_nil]
    omega
  have dl2 : L2.dropLast = L1.dropLast := by
    rw [s2, List.dropLast_concat]
  have dl3 : L3.dropLast = L2.dropLast := by
    rw [s3, List.dropLast_concat]
  -- the displayed content of the final trailing item
  have hc3lab : c3.payload.label =
      "@Key[" ++ (stripKeyTag e1.label ++ stripKeyTag e2.label ++
        stripKeyTag e3.label) ++ "]" := by
    show "@Key[" ++ stripKeyTag b.payload.label ++ stripKeyTag e3.label ++
      "]" = _
    rw [hstrip, String.append_assoc "@Key["
      (stripKeyTag e1.label ++ stripKeyTag e2.label) (stripKeyTag e3.label)]
  have hdisp : getDisplayLabel c3.payload =
      stripKeyTag e1.label ++ stripKeyTag e2.label ++ stripKeyTag e3.label := by
    rw [getDisplayLabel_eq, hc3lab]
    exact displayContent_wrap _
  exact ⟨len3.trans len2, dl3.trans dl2, c3, hl3, hdisp, rfl, rfl⟩

/-- Witness for C3: keys `a`, `b`, `c` from the empty log assemble into one
item displayed `abc` with count 1 and the last timestamp. -/
theorem c3_typing_assembly_witness :
    (applyEvent false 3 (applyEvent false 2 (applyEvent false 1 []
        ⟨EventType.key, "@key[a]", 0⟩) ⟨EventType.key, "@key[b]", 5⟩)
        ⟨EventType.key, "@key[c]", 9⟩).length =
      (applyEvent false 1 [] ⟨EventType.key, "@key[a]", 0⟩).length ∧
    ∃ last3,
      (applyEvent false 3 (applyEvent false 2 (applyEvent false 1 []
          ⟨EventType.key, "@key[a]", 0⟩) ⟨EventType.key, "@key[b]", 5⟩)
          ⟨EventType.key, "@key[c]", 9⟩).getLast? = some last3 ∧
      getDisplayLabel last3.payload = "abc" ∧
      last3.count = 1 ∧ last3.payload.timestamp = 9 := by
  obtain ⟨hlen, -, last3, hlast, hdisp, hcount, hts⟩ :=
    c3_typing_assembly 1 2 3 []
      (applyEvent false 1 [] ⟨EventType.key, "@key[a]", 0⟩)
      (applyEvent false 2 (applyEvent false 1 []
        ⟨EventType.key, "@key[a]", 0⟩) ⟨EventType.key, "@key[b]", 5⟩)
      (applyEvent false 3 (applyEvent false 2 (applyEvent false 1 []
        ⟨EventType.key, "@key[a]", 0⟩) ⟨EventType.key, "@key[b]", 5⟩)
        ⟨EventType.key, "@key[c]", 9⟩)
      ⟨EventType.key, "@key[a]", 0⟩ ⟨EventType.key, "@key[b]", 5⟩
      ⟨EventType.key, "@key[c]", 9⟩
      rfl rfl rfl (by decide) (by decide) (by decide) (by decide) (by decide)
      (by decide) (by intro last hl; cases hl) rfl rfl rfl
  exact ⟨hlen, last3, hlast, by rw [hdisp]; decide, hcount, hts⟩

end EchoCast
